import Mathlib

/-!
Shallow embedding of the stepper-motor sequencer firmware
(`src/Firmware/src/main.cpp`): a four-state polling loop driving an
AccelStepper motion executor, with a driver-enable line and a dwell timer.

The serial transport, GPIO pin semantics and the step-pulse timing of the
motion executor are external capabilities; they are embedded as follows:

* the motor (AccelStepper) is a pair of absolute step coordinates
  `pos`/`target`; `moveTo` sets `target`, `distanceToGo` is `target - pos`,
  and one call to `run` moves `pos` one step toward `target` (no step when
  already at the target) — the acceleration timing merely slows the steps
  down, it does not change which positions are visited;
* `digitalWrite(ENABLE_PIN, LOW)` is `enabled := true` (the pin is
  active-low), `HIGH` is `enabled := false`;
* `millis()` is a natural-number clock sample passed to each loop
  iteration; the firmware's `unsigned long` subtraction is 32-bit, so
  elapsed time is computed modulo `2^32`;
* Arduino `String::trim` / `String::toLowerCase` are list-based character
  operations; `Serial.println` status lines are an explicit message type.
-/

set_option maxRecDepth 100000

namespace Door

/-- `#define STEP 50`. -/
def STEP : Int := 50

/-- `#define WAITING_TIME 5000`. -/
def WAITING_TIME : Nat := 5000

/-- `unsigned long` modulus for the `millis()` arithmetic. -/
def UINT32_MOD : Nat := 4294967296

/-- The status lines emitted over serial, one constructor per distinct
`Serial.println` in `loop()`. -/
inductive Msg where
  | motorOn
  | rejectOn
  | motorOff
  | rejectOff
  | unknownCmd
  | stepsCompleted
  | rewindComplete
  | waitComplete
deriving DecidableEq, Repr

/-- The firmware's mutable state: the three global flags and the dwell
timestamp of `main.cpp`, plus the embedded motor (`pos`, `target`) and the
driver-enable line (`enabled`, true = pin LOW = driver powered). -/
structure MachineState where
  motorRunning : Bool
  isRewinding : Bool
  isWaiting : Bool
  waitStartTime : Nat
  pos : Int
  target : Int
  enabled : Bool
deriving DecidableEq, Repr

/-- One call to `AccelStepper::run`: at most one step toward the target,
nothing when the motor is already there. -/
def runStep (pos target : Int) : Int :=
  if pos < target then pos + 1 else if target < pos then pos - 1 else pos

/-- Arduino `String::toLowerCase`, character by character. -/
def lowerAscii (s : String) : String :=
  String.mk (s.data.map Char.toLower)

/-- Arduino `String::trim`: drop whitespace from both ends. -/
def trimAscii (s : String) : String :=
  String.mk (((s.data.dropWhile Char.isWhitespace).reverse.dropWhile
    Char.isWhitespace).reverse)

/-- `command.trim(); command.toLowerCase();` applied to a received line. -/
def normalizeCmd (raw : String) : String :=
  lowerAscii (trimAscii raw)

/-- 32-bit `millis() - waitStartTime`, as computed on `unsigned long`. -/
def elapsedMs (now start : Nat) : Nat :=
  (now % UINT32_MOD + (UINT32_MOD - start % UINT32_MOD)) % UINT32_MOD

/-- The command-ingestion block of `loop()` (the `Serial.available`
branch): normalize the received line, then dispatch on `"#on"` /
`"#off"` / anything else, exactly as the three `if` arms of the source. -/
def processCommand (s : MachineState) (raw : String) : MachineState × Msg :=
  let command := normalizeCmd raw
  if command = "#on" then
    if s.motorRunning = false ∧ s.isRewinding = false ∧ s.isWaiting = false then
      ({ s with enabled := true, target := s.pos + STEP,
                motorRunning := true, isWaiting := false }, Msg.motorOn)
    else
      (s, Msg.rejectOn)
  else if command = "#off" then
    if s.isRewinding = false then
      ({ s with enabled := true, target := s.pos - STEP,
                motorRunning := false, isWaiting := false,
                isRewinding := true }, Msg.motorOff)
    else
      (s, Msg.rejectOff)
  else
    (s, Msg.unknownCmd)

/-- The `if (motorRunning)` block: `motor1.run()`, then the completion
check `distanceToGo() == 0 && !isWaiting` that starts the dwell. -/
def forwardBlock (s : MachineState) (now : Nat) : MachineState × List Msg :=
  if s.motorRunning then
    let s1 := { s with pos := runStep s.pos s.target }
    if s1.target - s1.pos = 0 ∧ s1.isWaiting = false then
      ({ s1 with waitStartTime := now, isWaiting := true },
        [Msg.stepsCompleted])
    else
      (s1, [])
  else
    (s, [])

/-- The `if (isRewinding)` block: `motor1.run()`, then on
`distanceToGo() == 0` disable the driver and leave REWINDING. -/
def rewindBlock (s : MachineState) : MachineState × List Msg :=
  if s.isRewinding then
    let s1 := { s with pos := runStep s.pos s.target }
    if s1.target - s1.pos = 0 then
      ({ s1 with enabled := false, isRewinding := false },
        [Msg.rewindComplete])
    else
      (s1, [])
  else
    (s, [])

/-- The `if (isWaiting)` block: on `millis() - waitStartTime >=
WAITING_TIME` disable the driver and clear the flags. -/
def dwellBlock (s : MachineState) (now : Nat) : MachineState × List Msg :=
  if s.isWaiting then
    if WAITING_TIME ≤ elapsedMs now s.waitStartTime then
      ({ s with enabled := false, motorRunning := false,
                isWaiting := false }, [Msg.waitComplete])
    else
      (s, [])
  else
    (s, [])

/-- The motion/timer part of `loop()`: the three guarded blocks in source
order (forward, rewind, dwell). -/
def motionPhase (s : MachineState) (now : Nat) : MachineState × List Msg :=
  let fw := forwardBlock s now
  let rw := rewindBlock fw.1
  let dw := dwellBlock rw.1 now
  (dw.1, fw.2 ++ rw.2 ++ dw.2)

/-- One full iteration of `loop()`: drain at most one pending command line
(`Serial.available`), then the motion/timer blocks, at clock sample
`now = millis()`. -/
def loopStep (s : MachineState) (cmd : Option String) (now : Nat) :
    MachineState × List Msg :=
  match cmd with
  | none => motionPhase s now
  | some raw =>
      let pc := processCommand s raw
      let mp := motionPhase pc.1 now
      (mp.1, pc.2 :: mp.2)

/-- The state after `setup()`: flags cleared, driver disabled
(`digitalWrite(ENABLE_PIN, HIGH)`), motor at position zero. -/
def initialState : MachineState :=
  { motorRunning := false, isRewinding := false, isWaiting := false,
    waitStartTime := 0, pos := 0, target := 0, enabled := false }

/-- IDLE: no flag set. -/
def isIDLE (s : MachineState) : Bool :=
  !s.motorRunning && !s.isRewinding && !s.isWaiting

/-- RUNNING: forward move in progress. -/
def isRUNNING (s : MachineState) : Bool :=
  s.motorRunning && !s.isWaiting && !s.isRewinding

/-- WAITING: forward move finished, dwell timer armed (`motorRunning`
stays set in the source while waiting). -/
def isWAITING (s : MachineState) : Bool :=
  s.motorRunning && s.isWaiting

/-- REWINDING: rewind move in progress. -/
def isREWINDING (s : MachineState) : Bool :=
  s.isRewinding

/-- States reachable from reset by iterating `loop()` with arbitrary
incoming lines and clock samples. -/
inductive Reachable : MachineState → Prop where
  | init : Reachable initialState
  | step (s : MachineState) (cmd : Option String) (now : Nat) :
      Reachable s → Reachable (loopStep s cmd now).1

/-- `n` consecutive loop iterations with no pending command, all observed
at clock sample `now`. -/
def pollN (s : MachineState) (now : Nat) : Nat → MachineState
  | 0 => s
  | n + 1 => pollN (loopStep s none now).1 now n

/-- The flag discipline the firmware maintains: WAITING implies the
forward flag is still set and the motor sits at its target, RUNNING and
REWINDING exclude each other, REWINDING excludes WAITING, and the enable
line mirrors `motorRunning || isRewinding`. -/
def Inv (s : MachineState) : Prop :=
  (s.isWaiting = true → s.motorRunning = true ∧ s.pos = s.target) ∧
  (s.motorRunning = true → s.isRewinding = false) ∧
  (s.isRewinding = true → s.isWaiting = false) ∧
  s.enabled = (s.motorRunning || s.isRewinding)

/-- Number of the four state predicates that hold of `s`. -/
def stateCount (s : MachineState) : Nat :=
  (if isIDLE s then 1 else 0) + (if isRUNNING s then 1 else 0) +
    (if isWAITING s then 1 else 0) + (if isREWINDING s then 1 else 0)

/-- A concrete reachable WAITING state: `#on` at clock 0, then 49 more
polls; the motor sits at 50 with the dwell armed and the driver still
enabled. -/
def waitingDemo : MachineState :=
  pollN (loopStep initialState (some "#on") 0).1 0 49

/-- The C3 scenario: from IDLE at position `P` (driver disabled,
arbitrary stale target `t0` and dwell stamp `w0`), accept `#on` at clock
100, poll 49 more times until the forward move completes, poll once at
clock 6000 so the dwell expires, accept `#off` at clock 6000, and poll
49 more times until the rewind completes. -/
def roundTrip (P t0 : Int) (w0 : Nat) : MachineState :=
  let s0 : MachineState := ⟨false, false, false, w0, P, t0, false⟩
  let s1 := (loopStep s0 (some "#on") 100).1
  let s2 := pollN s1 100 49
  let s3 := (loopStep s2 none 6000).1
  let s4 := (loopStep s3 (some "#off") 6000).1
  pollN s4 6000 49

/-- One `#off` issued from IDLE and run to completion: the command tick
(which already advances the motor one step) followed by 49 commandless
polls. -/
def offCycle (s : MachineState) (now : Nat) : MachineState :=
  pollN (loopStep s (some "#off") now).1 now 49

/-- `n` successive `#off` commands, each run to completion. -/
def offCycles (s : MachineState) (now : Nat) : Nat → MachineState
  | 0 => s
  | n + 1 => offCycles (offCycle s now) now n

lemma STEP_def : STEP = 50 := rfl

lemma elapsedMs_self (now : Nat) : elapsedMs now now = 0 := by
  unfold elapsedMs UINT32_MOD
  omega

lemma elapsedMs_eq (now start : Nat) (h1 : start ≤ now)
    (h2 : now < UINT32_MOD) : elapsedMs now start = now - start := by
  unfold elapsedMs UINT32_MOD at *
  omega

lemma runStep_self (p : Int) : runStep p p = p := by
  simp [runStep]

lemma forwardBlock_not_running (s : MachineState) (now : Nat)
    (h : s.motorRunning = false) : forwardBlock s now = (s, []) := by
  simp [forwardBlock, h]

lemma rewindBlock_not_rewinding (s : MachineState)
    (h : s.isRewinding = false) : rewindBlock s = (s, []) := by
  simp [rewindBlock, h]

lemma dwellBlock_not_waiting (s : MachineState) (now : Nat)
    (h : s.isWaiting = false) : dwellBlock s now = (s, []) := by
  simp [dwellBlock, h]

lemma forwardBlock_waiting (s : MachineState) (now : Nat)
    (hm : s.motorRunning = true) (hw : s.isWaiting = true)
    (hp : s.pos = s.target) : forwardBlock s now = (s, []) := by
  have hr : runStep s.pos s.target = s.pos := by rw [hp, runStep_self]
  cases s
  simp_all [forwardBlock]

lemma forwardBlock_running (s : MachineState) (now : Nat)
    (hm : s.motorRunning = true) (hw : s.isWaiting = false) :
    forwardBlock s now =
      if s.target - runStep s.pos s.target = 0 then
        ({ s with pos := runStep s.pos s.target, isWaiting := true,
                  waitStartTime := now }, [Msg.stepsCompleted])
      else
        ({ s with pos := runStep s.pos s.target }, []) := by
  unfold forwardBlock
  simp only [hm, hw, if_true, and_true]

lemma rewindBlock_rewinding (s : MachineState)
    (h : s.isRewinding = true) :
    rewindBlock s =
      if s.target - runStep s.pos s.target = 0 then
        ({ s with pos := runStep s.pos s.target, enabled := false,
                  isRewinding := false }, [Msg.rewindComplete])
      else
        ({ s with pos := runStep s.pos s.target }, []) := by
  unfold rewindBlock
  simp only [h, if_true]

lemma dwellBlock_waiting (s : MachineState) (now : Nat)
    (h : s.isWaiting = true) :
    dwellBlock s now =
      if WAITING_TIME ≤ elapsedMs now s.waitStartTime then
        ({ s with enabled := false, motorRunning := false,
                  isWaiting := false }, [Msg.waitComplete])
      else
        (s, []) := by
  unfold dwellBlock
  simp only [h, if_true]

lemma normalizeCmd_on : normalizeCmd "#on" = "#on" := by decide

lemma normalizeCmd_off : normalizeCmd "#off" = "#off" := by decide

lemma processCommand_on (s : MachineState) (h1 : s.motorRunning = false)
    (h2 : s.isRewinding = false) (h3 : s.isWaiting = false) :
    processCommand s "#on" =
      ({ s with enabled := true, target := s.pos + STEP,
                motorRunning := true, isWaiting := false },
        Msg.motorOn) := by
  unfold processCommand
  dsimp only
  rw [normalizeCmd_on, if_pos rfl, if_pos ⟨h1, h2, h3⟩]

lemma processCommand_on_reject (s : MachineState)
    (h : ¬(s.motorRunning = false ∧ s.isRewinding = false ∧
      s.isWaiting = false)) :
    processCommand s "#on" = (s, Msg.rejectOn) := by
  unfold processCommand
  dsimp only
  rw [normalizeCmd_on, if_pos rfl, if_neg h]

lemma processCommand_off (s : MachineState) (h : s.isRewinding = false) :
    processCommand s "#off" =
      ({ s with enabled := true, target := s.pos - STEP,
                motorRunning := false, isWaiting := false,
                isRewinding := true }, Msg.motorOff) := by
  unfold processCommand
  dsimp only
  rw [normalizeCmd_off, if_neg (by decide), if_pos rfl, if_pos h]

lemma processCommand_off_reject (s : MachineState)
    (h : s.isRewinding = true) :
    processCommand s "#off" = (s, Msg.rejectOff) := by
  unfold processCommand
  dsimp only
  rw [normalizeCmd_off, if_neg (by decide), if_pos rfl,
    if_neg (by simp [h])]

lemma inv_processCommand (s : MachineState) (raw : String) (h : Inv s) :
    Inv (processCommand s raw).1 := by
  obtain ⟨h1, h2, h3, h4⟩ := h
  unfold processCommand
  dsimp only
  split
  · split
    · rename_i hg
      simp [Inv, hg.2.1]
    · exact ⟨h1, h2, h3, h4⟩
  · split
    · split
      · simp [Inv]
      · exact ⟨h1, h2, h3, h4⟩
    · exact ⟨h1, h2, h3, h4⟩

lemma loopStep_none (s : MachineState) (now : Nat) :
    loopStep s none now = motionPhase s now := rfl

lemma phase_idle (s : MachineState) (now : Nat)
    (h1 : s.motorRunning = false) (h2 : s.isRewinding = false)
    (h3 : s.isWaiting = false) : motionPhase s now = (s, []) := by
  simp [motionPhase, forwardBlock_not_running _ _ h1,
    rewindBlock_not_rewinding _ h2, dwellBlock_not_waiting _ _ h3]

lemma phase_running (s : MachineState) (now : Nat)
    (hm : s.motorRunning = true) (hw : s.isWaiting = false)
    (hr : s.isRewinding = false) :
    motionPhase s now =
      if s.target - runStep s.pos s.target = 0 then
        ({ s with pos := runStep s.pos s.target, isWaiting := true,
                  waitStartTime := now }, [Msg.stepsCompleted])
      else
        ({ s with pos := runStep s.pos s.target }, []) := by
  unfold motionPhase forwardBlock
  simp only [hm, hw, if_true, and_true]
  split
  · simp [rewindBlock, dwellBlock, hr, elapsedMs_self, WAITING_TIME]
  · simp [rewindBlock, dwellBlock, hr, hw]

lemma phase_waiting (s : MachineState) (now : Nat)
    (hm : s.motorRunning = true) (hw : s.isWaiting = true)
    (hr : s.isRewinding = false) (hp : s.pos = s.target) :
    motionPhase s now =
      if WAITING_TIME ≤ elapsedMs now s.waitStartTime then
        ({ s with enabled := false, motorRunning := false,
                  isWaiting := false }, [Msg.waitComplete])
      else
        (s, []) := by
  unfold motionPhase
  rw [forwardBlock_waiting _ _ hm hw hp]
  simp only [rewindBlock_not_rewinding _ hr]
  unfold dwellBlock
  simp only [hw, if_true]
  split <;> simp

lemma phase_rewinding (s : MachineState) (now : Nat)
    (hr : s.isRewinding = true) (hm : s.motorRunning = false)
    (hw : s.isWaiting = false) :
    motionPhase s now =
      if s.target - runStep s.pos s.target = 0 then
        ({ s with pos := runStep s.pos s.target, enabled := false,
                  isRewinding := false }, [Msg.rewindComplete])
      else
        ({ s with pos := runStep s.pos s.target }, []) := by
  unfold motionPhase
  rw [forwardBlock_not_running _ _ hm]
  unfold rewindBlock
  simp only [hr, if_true]
  split
  · simp [dwellBlock, hw]
  · simp [dwellBlock, hw]

lemma inv_motionPhase (s : MachineState) (now : Nat) (h : Inv s) :
    Inv (motionPhase s now).1 := by
  obtain ⟨h1, h2, h3, h4⟩ := h
  cases hm : s.motorRunning with
  | true =>
    have hr := h2 hm
    cases hw : s.isWaiting with
    | false =>
      rw [phase_running s now hm hw hr]
      split
      · rename_i hdone
        refine ⟨fun _ => ⟨hm, by dsimp; omega⟩, fun _ => hr,
          fun hc => absurd hc (by simp [hr]), by simp [hm, h4]⟩
      · exact ⟨by simp [hw], fun _ => hr, fun hc => absurd hc (by simp [hr]),
          by simp [hm, hr, h4]⟩
    | true =>
      rw [phase_waiting s now hm hw hr (h1 hw).2]
      split
      · exact ⟨by simp, by simp, fun _ => rfl, by simp [hr]⟩
      · exact ⟨h1, h2, h3, h4⟩
  | false =>
    cases hr : s.isRewinding with
    | true =>
      have hw := h3 hr
      rw [phase_rewinding s now hr hm hw]
      split
      · exact ⟨by simp [hw], by simp [hm], by simp, by simp [hm]⟩
      · exact ⟨by simp [hw], by simp [hm], by simp [hr, hw],
          by simp [hm, hr, h4]⟩
    | false =>
      have hw : s.isWaiting = false := by
        cases hww : s.isWaiting
        · rfl
        · exact absurd (h1 hww).1 (by simp [hm])
      rw [phase_idle s now hm hr hw]
      exact ⟨h1, h2, h3, h4⟩

lemma inv_loopStep (s : MachineState) (cmd : Option String) (now : Nat)
    (h : Inv s) : Inv (loopStep s cmd now).1 := by
  cases cmd with
  | none => exact inv_motionPhase s now h
  | some raw =>
    show Inv (motionPhase (processCommand s raw).1 now).1
    exact inv_motionPhase _ now (inv_processCommand s raw h)

/-- Every reachable state satisfies the flag discipline. -/
lemma reachable_inv (s : MachineState) (h : Reachable s) : Inv s := by
  induction h with
  | init => simp [Inv, initialState]
  | step s cmd now _ ih => exact inv_loopStep s cmd now ih

lemma reachable_pollN (s : MachineState) (now : Nat) (n : Nat)
    (h : Reachable s) : Reachable (pollN s now n) := by
  induction n generalizing s with
  | zero => exact h
  | succ m ih => exact ih _ (Reachable.step s none now h)

/-- From RUNNING with `n + 1` steps still to go, `n + 1` polls finish the
forward move and arm the dwell timer at the clock sample of the last
poll. -/
lemma forward_run (n : Nat) :
    ∀ (s : MachineState) (now : Nat), s.motorRunning = true →
      s.isWaiting = false → s.isRewinding = false →
      s.target = s.pos + ((n : Int) + 1) →
      pollN s now (n + 1) =
        { s with pos := s.target, isWaiting := true,
                 waitStartTime := now } := by
  induction n with
  | zero =>
    intro s now hm hw hr ht
    norm_num at ht
    have hrun : runStep s.pos s.target = s.pos + 1 := by
      unfold runStep
      rw [if_pos (by omega)]
    show pollN (loopStep s none now).1 now 0 = _
    rw [pollN, loopStep_none, phase_running s now hm hw hr, hrun,
      if_pos (by omega)]
    dsimp only
    rw [ht]
  | succ m ih =>
    intro s now hm hw hr ht
    have hrun : runStep s.pos s.target = s.pos + 1 := by
      unfold runStep
      rw [if_pos (by push_cast at ht; omega)]
    show pollN (loopStep s none now).1 now (m + 1) = _
    rw [loopStep_none, phase_running s now hm hw hr, hrun,
      if_neg (by push_cast at ht; omega)]
    dsimp only
    rw [ih { s with pos := s.pos + 1 } now hm hw hr
      (by dsimp only; push_cast at ht ⊢; omega)]

/-- From REWINDING with `n + 1` steps still to go, `n + 1` polls finish
the rewind, disable the driver and return to IDLE. -/
lemma rewind_run (n : Nat) :
    ∀ (s : MachineState) (now : Nat), s.isRewinding = true →
      s.motorRunning = false → s.isWaiting = false →
      s.target = s.pos - ((n : Int) + 1) →
      pollN s now (n + 1) =
        { s with pos := s.target, isRewinding := false,
                 enabled := false } := by
  induction n with
  | zero =>
    intro s now hr hm hw ht
    norm_num at ht
    have hrun : runStep s.pos s.target = s.pos - 1 := by
      unfold runStep
      rw [if_neg (by omega), if_pos (by omega)]
    show pollN (loopStep s none now).1 now 0 = _
    rw [pollN, loopStep_none, phase_rewinding s now hr hm hw, hrun,
      if_pos (by omega)]
    dsimp only
    rw [ht]
  | succ m ih =>
    intro s now hr hm hw ht
    have hrun : runStep s.pos s.target = s.pos - 1 := by
      unfold runStep
      rw [if_neg (by push_cast at ht; omega),
        if_pos (by push_cast at ht; omega)]
    show pollN (loopStep s none now).1 now (m + 1) = _
    rw [loopStep_none, phase_rewinding s now hr hm hw, hrun,
      if_neg (by push_cast at ht; omega)]
    dsimp only
    rw [ih { s with pos := s.pos - 1 } now hr hm hw
      (by dsimp only; push_cast at ht ⊢; omega)]

lemma reachable_waitingDemo : Reachable waitingDemo :=
  reachable_pollN _ 0 49
    (Reachable.step initialState (some "#on") 0 Reachable.init)

lemma offCycles_succ (s : MachineState) (now : Nat) (n : Nat) :
    offCycles s now (n + 1) = offCycles (offCycle s now) now n := rfl

lemma offCycle_idle (s : MachineState) (now : Nat)
    (h1 : s.motorRunning = false) (h2 : s.isRewinding = false)
    (h3 : s.isWaiting = false) :
    offCycle s now =
      { s with pos := s.pos - 50, target := s.pos - 50,
               enabled := false } := by
  unfold offCycle
  show pollN (motionPhase (processCommand s "#off").1 now).1 now 49 = _
  rw [processCommand_off s h2]
  simp only [STEP_def]
  rw [phase_rewinding _ now rfl rfl rfl]
  dsimp only
  have hrun : runStep s.pos (s.pos - 50) = s.pos - 1 := by
    unfold runStep
    rw [if_neg (by omega), if_pos (by omega)]
  rw [hrun, if_neg (by omega)]
  have hrr := rewind_run 48 (⟨false, true, false, s.waitStartTime,
    s.pos - 1, s.pos - 50, true⟩ : MachineState) now rfl rfl rfl
    (by dsimp only; push_cast; ring)
  rw [h1, h2, h3]
  exact hrr

lemma offCycles_spec (n : Nat) :
    ∀ (s : MachineState) (now : Nat), s.motorRunning = false →
      s.isRewinding = false → s.isWaiting = false → s.enabled = false →
      (offCycles s now n).pos = s.pos - (n : Int) * 50 ∧
      (offCycles s now n).motorRunning = false ∧
      (offCycles s now n).isRewinding = false ∧
      (offCycles s now n).isWaiting = false ∧
      (offCycles s now n).enabled = false := by
  induction n with
  | zero =>
    intro s now h1 h2 h3 h4
    refine ⟨?_, h1, h2, h3, h4⟩
    have h0 : offCycles s now 0 = s := rfl
    rw [h0]
    push_cast
    ring
  | succ m ih =>
    intro s now h1 h2 h3 h4
    rw [offCycles_succ, offCycle_idle s now h1 h2 h3]
    obtain ⟨p1, p2, p3, p4, p5⟩ := ih
      { s with pos := s.pos - 50, target := s.pos - 50,
               enabled := false } now h1 h2 h3 rfl
    refine ⟨?_, p2, p3, p4, p5⟩
    rw [p1]
    dsimp only
    push_cast
    ring

/-- Claim C1: a received `#on` token is accepted iff the sequencer is
IDLE; on acceptance the driver is enabled, the motion target becomes
`currentPosition + 50` and the state becomes RUNNING; on rejection a
rejection status is emitted and the state (flags, target, position,
enable line, dwell timestamp) is unchanged. -/
theorem claim_C1_on_accepted_iff_idle (s : MachineState) :
    (isIDLE s = true →
      processCommand s "#on" =
        ({ s with enabled := true, target := s.pos + 50,
                  motorRunning := true, isWaiting := false },
          Msg.motorOn) ∧
      isRUNNING (processCommand s "#on").1 = true) ∧
    (isIDLE s = false →
      processCommand s "#on" = (s, Msg.rejectOn)) := by
  constructor
  · intro h
    simp only [isIDLE, Bool.and_eq_true, Bool.not_eq_true'] at h
    obtain ⟨⟨h1, h2⟩, h3⟩ := h
    rw [processCommand_on s h1 h2 h3]
    exact ⟨rfl, by simp [isRUNNING, h2]⟩
  · intro h
    apply processCommand_on_reject
    intro hc
    rw [isIDLE, hc.1, hc.2.1, hc.2.2] at h
    simp at h

theorem claim_C1_witness :
    processCommand initialState "#on" =
      ({ initialState with
          enabled := true, target := initialState.pos + 50,
          motorRunning := true, isWaiting := false }, Msg.motorOn) ∧
    processCommand waitingDemo "#on" = (waitingDemo, Msg.rejectOn) :=
  ⟨((claim_C1_on_accepted_iff_idle initialState).1 (by decide)).1,
    (claim_C1_on_accepted_iff_idle waitingDemo).2 (by decide)⟩

/-- Claim C2: a received `#off` token is accepted from every state except
REWINDING: the driver is enabled, the motion target becomes
`currentPosition - 50` and the state becomes REWINDING directly (the
forward flag and the dwell flag are cleared, so a pending dwell is
cancelled — the dwell check cannot fire and no `waitComplete` status can
be produced by the following motion phase — and a remaining forward move
is abandoned, skipping WAITING). -/
theorem claim_C2_off_accepted (s : MachineState)
    (h : s.isRewinding = false) :
    processCommand s "#off" =
      ({ s with enabled := true, target := s.pos - 50,
                motorRunning := false, isWaiting := false,
                isRewinding := true }, Msg.motorOff) ∧
    isREWINDING (processCommand s "#off").1 = true ∧
    (processCommand s "#off").1.isWaiting = false ∧
    (processCommand s "#off").1.motorRunning = false ∧
    ∀ now, Msg.waitComplete ∉ (motionPhase (processCommand s "#off").1 now).2 := by
  have hpc := processCommand_off s h
  refine ⟨hpc, by rw [hpc]; rfl, by rw [hpc], by rw [hpc], ?_⟩
  intro now
  rw [hpc]
  dsimp only
  rw [show (motionPhase
      { s with enabled := true, target := s.pos - STEP,
               motorRunning := false, isWaiting := false,
               isRewinding := true } now) =
    _ from phase_rewinding _ now rfl rfl rfl]
  split <;> simp

theorem claim_C2_witness :
    processCommand waitingDemo "#off" =
      ({ waitingDemo with
          enabled := true, target := waitingDemo.pos - 50,
          motorRunning := false, isWaiting := false,
          isRewinding := true }, Msg.motorOff) :=
  (claim_C2_off_accepted waitingDemo (by decide)).1

/-- Claim C3: the round trip — `#on`, run to completion, dwell expiry,
`#off`, run to completion — returns the motor to its starting position
`P`, in IDLE, with the driver disabled. -/
theorem claim_C3_round_trip (P t0 : Int) (w0 : Nat) :
    (roundTrip P t0 w0).pos = P ∧ isIDLE (roundTrip P t0 w0) = true ∧
      (roundTrip P t0 w0).enabled = false := by
  have hrun1 : runStep P (P + 50) = P + 1 := by
    unfold runStep
    rw [if_pos (by omega)]
  have e1 : (loopStep (⟨false, false, false, w0, P, t0, false⟩ :
      MachineState) (some "#on") 100).1 =
      ⟨true, false, false, w0, P + 1, P + 50, true⟩ := by
    show (motionPhase (processCommand _ "#on").1 100).1 = _
    rw [processCommand_on _ rfl rfl rfl]
    simp only [STEP_def]
    rw [phase_running _ 100 rfl rfl rfl]
    dsimp only
    rw [hrun1, if_neg (by omega)]
  have e2 : pollN (⟨true, false, false, w0, P + 1, P + 50, true⟩ :
      MachineState) 100 49 =
      ⟨true, false, true, 100, P + 50, P + 50, true⟩ := by
    have h := forward_run 48 ⟨true, false, false, w0, P + 1, P + 50,
      true⟩ 100 rfl rfl rfl (by dsimp only; push_cast; ring)
    exact h
  have e3 : (loopStep (⟨true, false, true, 100, P + 50, P + 50, true⟩ :
      MachineState) none 6000).1 =
      ⟨false, false, false, 100, P + 50, P + 50, false⟩ := by
    rw [loopStep_none, phase_waiting _ 6000 rfl rfl rfl rfl]
    dsimp only
    rw [if_pos (show WAITING_TIME ≤ elapsedMs 6000 100 by decide)]
  have hrun2 : runStep (P + 50) (P + 50 - 50) = P + 50 - 1 := by
    unfold runStep
    rw [if_neg (by omega), if_pos (by omega)]
  have e4 : (loopStep (⟨false, false, false, 100, P + 50, P + 50,
      false⟩ : MachineState) (some "#off") 6000).1 =
      ⟨false, true, false, 100, P + 50 - 1, P + 50 - 50, true⟩ := by
    show (motionPhase (processCommand _ "#off").1 6000).1 = _
    rw [processCommand_off _ rfl]
    simp only [STEP_def]
    rw [phase_rewinding _ 6000 rfl rfl rfl]
    dsimp only
    rw [hrun2, if_neg (by omega)]
  have e5 : pollN (⟨false, true, false, 100, P + 50 - 1, P + 50 - 50,
      true⟩ : MachineState) 6000 49 =
      ⟨false, false, false, 100, P + 50 - 50, P + 50 - 50, false⟩ := by
    have h := rewind_run 48 ⟨false, true, false, 100, P + 50 - 1,
      P + 50 - 50, true⟩ 6000 rfl rfl rfl
      (by dsimp only; push_cast; ring)
    exact h
  simp only [roundTrip]
  rw [e1, e2, e3, e4, e5]
  refine ⟨by show P + 50 - 50 = P; ring, rfl, rfl⟩

/-- Claim C4 counterexample: the claim says the driver is not enabled
while the state is WAITING, but `waitingDemo` is a reachable WAITING
state (reached with no command in its final tick) whose enable line is
still asserted — the firmware keeps holding torque during the dwell. -/
theorem claim_C4_counterexample :
    Reachable waitingDemo ∧ isWAITING waitingDemo = true ∧
      waitingDemo.enabled = true :=
  ⟨reachable_waitingDemo, by decide, by decide⟩

/-- Claim C4 (amended): in every reachable state the driver-enable
output is asserted iff the state is RUNNING, WAITING or REWINDING — the
driver stays enabled throughout the dwell and is disabled exactly in
IDLE. -/
theorem claim_C4_enabled_iff_active (s : MachineState)
    (h : Reachable s) :
    s.enabled = true ↔
      (isRUNNING s = true ∨ isWAITING s = true ∨
        isREWINDING s = true) := by
  obtain ⟨h1, h2, h3, h4⟩ := reachable_inv s h
  clear h
  obtain ⟨mR, rwd, w, wt, p, t, en⟩ := s
  dsimp only at h4 ⊢
  cases mR <;> cases rwd <;> cases w <;>
    (rw [h4]; simp [isRUNNING, isWAITING, isREWINDING])

theorem claim_C4_witness :
    initialState.enabled = true ↔
      (isRUNNING initialState = true ∨ isWAITING initialState = true ∨
        isREWINDING initialState = true) :=
  claim_C4_enabled_iff_active initialState Reachable.init

/-- Claim C5: in one commandless loop iteration from a reachable state,
only the active state's motion/timer check takes effect: the whole
motion phase equals the forward block alone in RUNNING, the dwell block
alone in WAITING (and the motor position is untouched there — the
`run()` call of the forward block makes no step at `distanceToGo == 0`),
the rewind block alone in REWINDING, and nothing at all in IDLE. -/
theorem claim_C5_single_check (s : MachineState) (now : Nat)
    (h : Reachable s) :
    (isIDLE s = true → loopStep s none now = (s, [])) ∧
    (isRUNNING s = true → loopStep s none now = forwardBlock s now) ∧
    (isWAITING s = true → loopStep s none now = dwellBlock s now ∧
      (loopStep s none now).1.pos = s.pos) ∧
    (isREWINDING s = true → loopStep s none now = rewindBlock s) := by
  obtain ⟨h1, h2, h3, h4⟩ := reachable_inv s h
  refine ⟨?_, ?_, ?_, ?_⟩
  · intro hI
    simp only [isIDLE, Bool.and_eq_true, Bool.not_eq_true'] at hI
    rw [loopStep_none, phase_idle s now hI.1.1 hI.1.2 hI.2]
  · intro hR
    simp only [isRUNNING, Bool.and_eq_true, Bool.not_eq_true'] at hR
    obtain ⟨⟨hm, hw⟩, hr⟩ := hR
    rw [loopStep_none, phase_running s now hm hw hr,
      forwardBlock_running s now hm hw]
  · intro hW
    simp only [isWAITING, Bool.and_eq_true] at hW
    obtain ⟨hm, hw⟩ := hW
    have hr := h2 hm
    have hp := (h1 hw).2
    constructor
    · rw [loopStep_none, phase_waiting s now hm hw hr hp,
        dwellBlock_waiting s now hw]
    · rw [loopStep_none, phase_waiting s now hm hw hr hp]
      split <;> rfl
  · intro hRw
    simp only [isREWINDING] at hRw
    have hm : s.motorRunning = false := by
      cases hmm : s.motorRunning
      · rfl
      · exact absurd (h2 hmm) (by simp [hRw])
    have hw := h3 hRw
    rw [loopStep_none, phase_rewinding s now hRw hm hw,
      rewindBlock_rewinding s hRw]

theorem claim_C5_witness :
    loopStep waitingDemo none 0 = dwellBlock waitingDemo 0 ∧
      (loopStep waitingDemo none 0).1.pos = waitingDemo.pos :=
  (claim_C5_single_check waitingDemo 0 reachable_waitingDemo).2.2.1
    (by decide)

/-- Claim C6: from a reachable WAITING state with no incoming command,
the transition fires exactly on the first poll whose clock sample is at
least `WAITING_TIME = 5000` ms past the recorded dwell start: before
that the state (including the still-enabled driver) is untouched, and at
it the driver is disabled, the state becomes IDLE and the position stays
at the forward move's endpoint. -/
theorem claim_C6_dwell_expiry (s : MachineState) (now : Nat)
    (h : Reachable s) (hW : isWAITING s = true)
    (hle : s.waitStartTime ≤ now) (hnow : now < UINT32_MOD) :
    (now - s.waitStartTime < WAITING_TIME →
      loopStep s none now = (s, []) ∧ s.enabled = true) ∧
    (WAITING_TIME ≤ now - s.waitStartTime →
      loopStep s none now =
        ({ s with enabled := false, motorRunning := false,
                  isWaiting := false }, [Msg.waitComplete]) ∧
      (loopStep s none now).1.pos = s.pos ∧
      isIDLE (loopStep s none now).1 = true) := by
  obtain ⟨h1, h2, h3, h4⟩ := reachable_inv s h
  simp only [isWAITING, Bool.and_eq_true] at hW
  obtain ⟨hm, hw⟩ := hW
  have hr := h2 hm
  have hp := (h1 hw).2
  have hstep := phase_waiting s now hm hw hr hp
  rw [elapsedMs_eq now s.waitStartTime hle hnow] at hstep
  constructor
  · intro hlt
    rw [loopStep_none, hstep, if_neg (by omega)]
    refine ⟨rfl, ?_⟩
    rw [h4, hm, hr]
    rfl
  · intro hge
    rw [loopStep_none, hstep, if_pos (by omega)]
    exact ⟨rfl, rfl, by simp [isIDLE, hr]⟩

theorem claim_C6_witness :
    loopStep waitingDemo none 6000 =
      ({ waitingDemo with
          enabled := false, motorRunning := false, isWaiting := false },
        [Msg.waitComplete]) :=
  ((claim_C6_dwell_expiry waitingDemo 6000 reachable_waitingDemo
    (by decide) (by decide) (by decide)).2 (by decide)).1

/-- Claim C7: a received `#off` token while already REWINDING is
rejected: the rejection status is emitted and the whole state — target,
position, enable line, flags, dwell timestamp — is unchanged, so the
in-progress rewind is not re-commanded. -/
theorem claim_C7_off_while_rewinding_rejected (s : MachineState)
    (h : s.isRewinding = true) :
    processCommand s "#off" = (s, Msg.rejectOff) :=
  processCommand_off_reject s h

theorem claim_C7_witness :
    processCommand
        { motorRunning := false, isRewinding := true, isWaiting := false,
          waitStartTime := 0, pos := 3, target := -47, enabled := true }
        "#off" =
      ({ motorRunning := false, isRewinding := true, isWaiting := false,
         waitStartTime := 0, pos := 3, target := -47, enabled := true },
        Msg.rejectOff) :=
  claim_C7_off_while_rewinding_rejected _ (by decide)

/-- Claim C8: a received line whose trimmed, lower-cased form is neither
`#on` nor `#off` produces only the unknown-command status and leaves the
whole state — flags, target, position, enable line, dwell timestamp —
unchanged. -/
theorem claim_C8_unknown_command (s : MachineState) (raw : String)
    (h1 : normalizeCmd raw ≠ "#on") (h2 : normalizeCmd raw ≠ "#off") :
    processCommand s raw = (s, Msg.unknownCmd) := by
  unfold processCommand
  dsimp only
  rw [if_neg h1, if_neg h2]

theorem claim_C8_witness :
    processCommand waitingDemo "foo" = (waitingDemo, Msg.unknownCmd) :=
  claim_C8_unknown_command waitingDemo "foo" (by decide) (by decide)

/-- Claim C9: in every reachable state the flags encode exactly one of
the four states: `motorRunning` and `isRewinding` are never both set,
`isRewinding` and `isWaiting` are never both set, `isWaiting` implies
`motorRunning`, and exactly one of IDLE / RUNNING / WAITING / REWINDING
holds. -/
theorem claim_C9_flag_exclusions (s : MachineState) (h : Reachable s) :
    ¬(s.motorRunning = true ∧ s.isRewinding = true) ∧
    ¬(s.isRewinding = true ∧ s.isWaiting = true) ∧
    (s.isWaiting = true → s.motorRunning = true) ∧
    stateCount s = 1 := by
  obtain ⟨h1, h2, h3, h4⟩ := reachable_inv s h
  clear h
  refine ⟨fun hc => absurd (h2 hc.1) (by simp [hc.2]),
    fun hc => absurd (h3 hc.1) (by simp [hc.2]),
    fun hw => (h1 hw).1, ?_⟩
  obtain ⟨mR, rwd, w, wt, p, t, en⟩ := s
  dsimp only at h1 h2 h3
  cases mR <;> cases rwd <;> cases w <;>
    first
      | rfl
      | (exact absurd (h2 rfl) (by simp))
      | (exact absurd (h1 rfl).1 (by simp))

theorem claim_C9_witness :
    ¬(initialState.motorRunning = true ∧
        initialState.isRewinding = true) ∧
    ¬(initialState.isRewinding = true ∧
        initialState.isWaiting = true) ∧
    (initialState.isWaiting = true →
        initialState.motorRunning = true) ∧
    stateCount initialState = 1 :=
  claim_C9_flag_exclusions initialState Reachable.init

/-- Claim C10: the position is never clamped below: `n` successive
`#off` commands, each issued from IDLE and run to completion, leave the
sequencer in IDLE with the driver disabled at exactly the initial
position minus `n * 50`, which is arbitrarily negative for large `n`. -/
theorem claim_C10_unbounded_rewind (P t0 : Int) (w0 now : Nat)
    (n : Nat) :
    (offCycles ⟨false, false, false, w0, P, t0, false⟩ now n).pos =
        P - (n : Int) * 50 ∧
    isIDLE (offCycles ⟨false, false, false, w0, P, t0, false⟩ now n) =
        true ∧
    (offCycles ⟨false, false, false, w0, P, t0, false⟩ now n).enabled =
        false := by
  obtain ⟨p1, p2, p3, p4, p5⟩ := offCycles_spec n
    ⟨false, false, false, w0, P, t0, false⟩ now rfl rfl rfl rfl
  exact ⟨p1, by simp [isIDLE, p2, p3, p4], p5⟩

end Door
